import Mathlib

/-!
# zsign: the command line and the embeddable signing entry points

A shallow embedding of `src/zsign_export.cpp` and `src/zsign.cpp`.

The two files are glue around three collaborators whose code lives elsewhere
(`ZFile`, `ZMachO`, `ZSignAsset`).  Here the file system is an explicit value
threaded through every function, and each collaborator is a field of `Env`:
the theorems hold for every behaviour of the collaborators, the concrete runs
use the small in-memory instance `memEnv`.
-/

namespace ZSign

/-! ## Data model -/

/-- Byte strings (file contents and memory buffers). -/
abbrev Bytes := List Nat

/-- The file system: regular files with their content, folders, and the number
of bytes that can still be stored. -/
structure FS where
  files : List (String × Bytes)
  folders : List String
  free : Nat
  deriving DecidableEq, Repr

/-- The external calls a run attempts, in order, each with what it returned
(ghost state used to say what was and what was not attempted). -/
inductive Event where
  | createFolder (path : String) (ok : Bool)
  | copyFile (src dst : String) (ok : Bool)
  | writeFile (path : String) (ok : Bool)
  | readFile (path : String) (ok : Bool)
  | removeFile (path : String) (ok : Bool)
  | machoInit (path : String) (ok : Bool)
  | assetInit (ok : Bool)
  | machoSign (path : String) (ok : Bool)
  deriving DecidableEq, Repr

/-- The arguments `ZSignAsset::Init` receives (its last argument is the
constant `true`). -/
structure AssetArgs where
  certFile : String
  pkeyFile : String
  provFile : String
  entitlementsFile : String
  passwd : String
  bAdhoc : Bool
  bSHA256Only : Bool
  deriving DecidableEq, Repr

/-- The collaborators of the two source files, none of which is defined in
them, each taken as a parameter.  `machoInit` and `assetInit` only read the
file system: the container and the asset bundle are loaded from files, and
the binary is rewritten by Sign alone. -/
structure Env where
  /-- Models `ZFile::GetFullPath`. -/
  GetFullPath : FS → String → String
  /-- Models `ZFile::GetRealPath` applied to an already formatted path. -/
  GetRealPath : FS → String → String
  /-- Models `ZFile::IsFileExists`. -/
  IsFileExists : FS → String → Bool
  /-- Models `ZFile::IsFolder`. -/
  IsFolder : FS → String → Bool
  /-- Models `ZFile::CreateFolder`. -/
  CreateFolder : FS → String → Bool × FS
  /-- Models `ZFile::CopyFile`. -/
  CopyFile : FS → String → String → Bool × FS
  /-- Models `ZFile::WriteFile`. -/
  WriteFile : FS → String → Bytes → Bool × FS
  /-- Models `ZFile::ReadFile`. -/
  ReadFile : FS → String → Option Bytes
  /-- Models `ZFile::RemoveFile`. -/
  RemoveFile : FS → String → Bool × FS
  /-- Models `ZUtil::GetMicroSecond`, as a function of the number of earlier reads. -/
  GetMicroSecond : Nat → Nat
  /-- Models `ZMachO::Init`. -/
  machoInit : FS → String → Bool
  /-- Models `ZSignAsset::Init`. -/
  assetInit : FS → AssetArgs → Bool
  /-- Models `ZMachO::Sign` on the file opened by `ZMachO::Init`; the `Bool`
  argument is the force flag. -/
  machoSign : FS → String → AssetArgs → Bool → Bool × FS
  /-- Models `malloc`: whether a request of the given size is served. -/
  malloc : Nat → Bool

/-- The process state the entry points read and write. -/
structure World where
  fs : FS
  /-- What `ZLog::IsDebug()` answers. -/
  debug : Bool
  /-- The static counter `sSeq` of `BuildTempFilePath`. -/
  sSeq : Nat
  /-- Whether the `once_flag` of `GetTempRoot` has fired. -/
  sOnce : Bool
  /-- Number of clock reads so far. -/
  ticks : Nat
  trace : List Event
  deriving DecidableEq, Repr

/-! ## Collaborator calls on the world -/

namespace ZFile

/-- A call of `ZFile::CreateFolder`. -/
def CreateFolder (env : Env) (w : World) (path : String) : Bool × World :=
  let r := env.CreateFolder w.fs path
  (r.1, { w with fs := r.2, trace := w.trace ++ [Event.createFolder path r.1] })

/-- A call of `ZFile::CopyFile`. -/
def CopyFile (env : Env) (w : World) (src dst : String) : Bool × World :=
  let r := env.CopyFile w.fs src dst
  (r.1, { w with fs := r.2, trace := w.trace ++ [Event.copyFile src dst r.1] })

/-- A call of `ZFile::WriteFile`. -/
def WriteFile (env : Env) (w : World) (path : String) (data : Bytes) : Bool × World :=
  let r := env.WriteFile w.fs path data
  (r.1, { w with fs := r.2, trace := w.trace ++ [Event.writeFile path r.1] })

/-- A call of `ZFile::ReadFile`: `none` is the `false` return. -/
def ReadFile (env : Env) (w : World) (path : String) : Option Bytes × World :=
  (env.ReadFile w.fs path,
    { w with trace := w.trace ++ [Event.readFile path (env.ReadFile w.fs path).isSome] })

/-- A call of `ZFile::RemoveFile`. -/
def RemoveFile (env : Env) (w : World) (path : String) : Bool × World :=
  let r := env.RemoveFile w.fs path
  (r.1, { w with fs := r.2, trace := w.trace ++ [Event.removeFile path r.1] })

end ZFile

namespace ZMachO

/-- A call of `ZMachO::Init`. -/
def Init (env : Env) (w : World) (path : String) : Bool × World :=
  (env.machoInit w.fs path,
    { w with trace := w.trace ++ [Event.machoInit path (env.machoInit w.fs path)] })

/-- A call of `ZMachO::Sign` on the object initialised from `path`. -/
def Sign (env : Env) (w : World) (path : String) (zsa : AssetArgs) (bForce : Bool) :
    Bool × World :=
  let r := env.machoSign w.fs path zsa bForce
  (r.1, { w with fs := r.2, trace := w.trace ++ [Event.machoSign path r.1] })

end ZMachO

namespace ZSignAsset

/-- A call of `ZSignAsset::Init`. -/
def Init (env : Env) (w : World) (zsa : AssetArgs) : Bool × World :=
  (env.assetInit w.fs zsa,
    { w with trace := w.trace ++ [Event.assetInit (env.assetInit w.fs zsa)] })

end ZSignAsset

/-! ## `zsign_export.cpp` -/

/-- `SafeString`: a null pointer reads as the empty string. -/
def SafeString (value : Option String) : String :=
  match value with
  | some s => s
  | none => ""

/-- `SafePath`: null and empty give the empty string, anything else its full path. -/
def SafePath (env : Env) (fs : FS) (value : Option String) : String :=
  match value with
  | none => ""
  | some s => if s = "" then "" else env.GetFullPath fs s

/-- `PrepareTargetPath` (the same text in both source files): the result is the
return value, the final `targetFile`, and the world. -/
def PrepareTargetPath (env : Env) (w : World) (inputFile outputFile : String) :
    Bool × String × World :=
  let targetFile := inputFile
  if outputFile = "" ∨ outputFile = inputFile then
    (true, targetFile, w)
  else
    let r := ZFile.CopyFile env w inputFile outputFile
    if r.1 = false then
      (false, targetFile, r.2)
    else
      (true, outputFile, r.2)

/-- The arguments of `zsign_sign_macho`; `none` is a null pointer. -/
structure SignArgs where
  input_macho : Option String
  output_macho : Option String
  cert_file : Option String
  pkey_file : Option String
  prov_file : Option String
  password : Option String
  entitlements_file : Option String
  adhoc : Int
  sha256_only : Int
  force_sign : Int
  deriving DecidableEq, Repr

/-- `zsign_sign_macho`: the returned code and the world it leaves. -/
def zsign_sign_macho (env : Env) (w : World) (a : SignArgs) : Int × World :=
  let inputMachO := SafePath env w.fs a.input_macho
  if inputMachO = "" ∨ env.IsFileExists w.fs inputMachO = false
      ∨ env.IsFolder w.fs inputMachO = true then
    (-1, w)
  else
    let outputMachO := SafePath env w.fs a.output_macho
    let certFile := SafePath env w.fs a.cert_file
    let pkeyFile := SafePath env w.fs a.pkey_file
    let provFile := SafePath env w.fs a.prov_file
    let entitlementsFile := SafePath env w.fs a.entitlements_file
    let passwd := SafeString a.password
    let bAdhoc : Bool := decide (a.adhoc ≠ 0)
    let bSHA256Only : Bool := decide (a.sha256_only ≠ 0)
    let bForceSign : Bool := decide (a.force_sign ≠ 0)
    if bAdhoc = false ∧ (pkeyFile = "" ∨ provFile = "") then
      (-2, w)
    else
      let w1 := if w.debug = true then (ZFile.CreateFolder env w "./.zsign_debug").2 else w
      let p := PrepareTargetPath env w1 inputMachO outputMachO
      if p.1 = false then
        (-3, p.2.2)
      else
        let targetMachO := p.2.1
        let m := ZMachO.Init env p.2.2 targetMachO
        if m.1 = false then
          (-4, m.2)
        else
          let zsa : AssetArgs :=
            { certFile := certFile, pkeyFile := pkeyFile, provFile := provFile,
              entitlementsFile := entitlementsFile, passwd := passwd,
              bAdhoc := bAdhoc, bSHA256Only := bSHA256Only }
          let i := ZSignAsset.Init env m.2 zsa
          if i.1 = false then
            (-5, i.2)
          else
            let s := ZMachO.Sign env i.2 targetMachO zsa bForceSign
            (if s.1 = true then 0 else -6, s.2)

/-- `GetTempRoot`: the folder is created by the first call only. -/
def GetTempRoot (env : Env) (w : World) : String × World :=
  if w.sOnce = false then
    ("/zsign_tmp", { (ZFile.CreateFolder env w "/zsign_tmp").2 with sOnce := true })
  else
    ("/zsign_tmp", w)

/-- `BuildTempFilePath`: `root/pfx_micros_seq` followed by `sfx`, through
`ZFile::GetRealPathV`; `sSeq` is a 64-bit counter. -/
def BuildTempFilePath (env : Env) (w : World) (pfx : String) (sfx : Option String) :
    String × World :=
  let seq := (w.sSeq + 1) % 2 ^ 64
  let w1 : World := { w with sSeq := seq }
  let r := GetTempRoot env w1
  let us := env.GetMicroSecond r.2.ticks
  let w2 : World := { r.2 with ticks := r.2.ticks + 1 }
  (env.GetRealPath w2.fs
      (r.1 ++ "/" ++ pfx ++ "_" ++ toString us ++ "_" ++ toString seq ++ SafeString sfx),
    w2)

/-- `WriteBlobToTempFile`: the return value, the final `outPath`, the world.
The buffer is `len` bytes starting at `data`. -/
def WriteBlobToTempFile (env : Env) (w : World) (pfx : String) (sfx : Option String)
    (data : Option Bytes) (len : Nat) : Bool × String × World :=
  match data with
  | none => (false, "", w)
  | some d =>
    if len = 0 then
      (false, "", w)
    else
      let t := BuildTempFilePath env w pfx sfx
      let r := ZFile.WriteFile env t.2 t.1 (d.take len)
      if r.1 = false then
        (false, "", r.2)
      else
        (true, t.1, r.2)

/-- `RemoveTempFiles`: every non-empty entry is removed, in order. -/
def RemoveTempFiles (env : Env) (w : World) : List String → World
  | [] => w
  | f :: rest =>
    if f ≠ "" then
      RemoveTempFiles env (ZFile.RemoveFile env w f).2 rest
    else
      RemoveTempFiles env w rest

/-- The arguments of `zsign_sign_macho_mem`.  A buffer pointer is `none` when
null; `output_data` and `output_len` are `none` when null and otherwise hold
the current content of the cell they point to (`some none` is a cell holding
`NULL`). -/
structure MemArgs where
  input_data : Option Bytes
  input_len : Nat
  cert_data : Option Bytes
  cert_len : Nat
  pkey_data : Option Bytes
  pkey_len : Nat
  prov_data : Option Bytes
  prov_len : Nat
  password : Option String
  entitlements_data : Option Bytes
  entitlements_len : Nat
  adhoc : Int
  sha256_only : Int
  force_sign : Int
  output_data : Option (Option Bytes)
  output_len : Option Nat
  deriving DecidableEq, Repr

/-- What a call of `zsign_sign_macho_mem` leaves: the returned code, the two
output cells, the world. -/
structure MemResult where
  ret : Int
  output_data : Option (Option Bytes)
  output_len : Option Nat
  world : World
  deriving DecidableEq, Repr

/-- The arguments `zsign_sign_macho_mem` passes to `zsign_sign_macho` at source
line 244: the staged paths (never null), the password or the empty string,
and the three flags. -/
def memSignArgs (a : MemArgs)
    (inputFile outputFile certFile pkeyFile provFile entitlementsFile : String) : SignArgs :=
  { input_macho := some inputFile, output_macho := some outputFile,
    cert_file := some certFile, pkey_file := some pkeyFile,
    prov_file := some provFile, password := some (SafeString a.password),
    entitlements_file := some entitlementsFile, adhoc := a.adhoc,
    sha256_only := a.sha256_only, force_sign := a.force_sign }

/-- The last part of `zsign_sign_macho_mem`, from the call of
`zsign_sign_macho` on (source lines 244 to 277), with the temp paths
collected so far. -/
def zsign_sign_macho_mem_sign (env : Env) (w : World) (a : MemArgs)
    (tempFiles : List String)
    (inputFile outputFile certFile pkeyFile provFile entitlementsFile : String) :
    MemResult :=
  let z := zsign_sign_macho env w
    (memSignArgs a inputFile outputFile certFile pkeyFile provFile entitlementsFile)
  if z.1 ≠ 0 then
    ⟨z.1, some none, some 0, RemoveTempFiles env z.2 tempFiles⟩
  else
    let rd := ZFile.ReadFile env z.2 outputFile
    match rd.1 with
    | none => ⟨-108, some none, some 0, RemoveTempFiles env rd.2 tempFiles⟩
    | some outData =>
      if env.malloc outData.length = false then
        ⟨-109, some none, some 0, RemoveTempFiles env rd.2 tempFiles⟩
      else
        ⟨0, some (some outData), some (outData.length % 2 ^ 32),
          RemoveTempFiles env rd.2 tempFiles⟩

/-- The part of `zsign_sign_macho_mem` that stages the entitlements (source
lines 235 to 242) and goes on to sign. -/
def zsign_sign_macho_mem_entitlements (env : Env) (w : World) (a : MemArgs)
    (tempFiles : List String) (inputFile outputFile certFile pkeyFile provFile : String) :
    MemResult :=
  if a.entitlements_data ≠ none ∧ 0 < a.entitlements_len then
    let e := WriteBlobToTempFile env w "entitlements" (some ".plist")
      a.entitlements_data a.entitlements_len
    if e.1 = false then
      ⟨-107, some none, some 0, RemoveTempFiles env e.2.2 tempFiles⟩
    else
      zsign_sign_macho_mem_sign env e.2.2 a (tempFiles ++ [e.2.1])
        inputFile outputFile certFile pkeyFile provFile e.2.1
  else
    zsign_sign_macho_mem_sign env w a tempFiles
      inputFile outputFile certFile pkeyFile provFile ""

/-- The part that stages the provisioning profile (source lines 226 to 233)
and goes on. -/
def zsign_sign_macho_mem_prov (env : Env) (w : World) (a : MemArgs)
    (tempFiles : List String) (inputFile outputFile certFile pkeyFile : String) :
    MemResult :=
  if a.prov_data ≠ none ∧ 0 < a.prov_len then
    let p := WriteBlobToTempFile env w "prov" (some ".mobileprovision") a.prov_data a.prov_len
    if p.1 = false then
      ⟨-106, some none, some 0, RemoveTempFiles env p.2.2 tempFiles⟩
    else
      zsign_sign_macho_mem_entitlements env p.2.2 a (tempFiles ++ [p.2.1])
        inputFile outputFile certFile pkeyFile p.2.1
  else
    zsign_sign_macho_mem_entitlements env w a tempFiles
      inputFile outputFile certFile pkeyFile ""

/-- The part that stages the private key (source lines 217 to 224) and goes on. -/
def zsign_sign_macho_mem_pkey (env : Env) (w : World) (a : MemArgs)
    (tempFiles : List String) (inputFile outputFile certFile : String) : MemResult :=
  if a.pkey_data ≠ none ∧ 0 < a.pkey_len then
    let k := WriteBlobToTempFile env w "pkey" (some ".bin") a.pkey_data a.pkey_len
    if k.1 = false then
      ⟨-105, some none, some 0, RemoveTempFiles env k.2.2 tempFiles⟩
    else
      zsign_sign_macho_mem_prov env k.2.2 a (tempFiles ++ [k.2.1])
        inputFile outputFile certFile k.2.1
  else
    zsign_sign_macho_mem_prov env w a tempFiles inputFile outputFile certFile ""

/-- The part that stages the certificate (source lines 208 to 215) and goes on. -/
def zsign_sign_macho_mem_cert (env : Env) (w : World) (a : MemArgs)
    (tempFiles : List String) (inputFile outputFile : String) : MemResult :=
  if a.cert_data ≠ none ∧ 0 < a.cert_len then
    let c := WriteBlobToTempFile env w "cert" (some ".bin") a.cert_data a.cert_len
    if c.1 = false then
      ⟨-104, some none, some 0, RemoveTempFiles env c.2.2 tempFiles⟩
    else
      zsign_sign_macho_mem_pkey env c.2.2 a (tempFiles ++ [c.2.1])
        inputFile outputFile c.2.1
  else
    zsign_sign_macho_mem_pkey env w a tempFiles inputFile outputFile ""

/-- `zsign_sign_macho_mem` (source lines 186 to 206, then the parts above). -/
def zsign_sign_macho_mem (env : Env) (w : World) (a : MemArgs) : MemResult :=
  if a.output_data = none ∨ a.output_len = none then
    ⟨-101, a.output_data, a.output_len, w⟩
  else if a.input_data = none ∨ a.input_len = 0 then
    ⟨-102, some none, some 0, w⟩
  else
    let tIn := BuildTempFilePath env w "input" (some ".macho")
    let inputFile := tIn.1
    let tOut := BuildTempFilePath env tIn.2 "output" (some ".macho")
    let outputFile := tOut.1
    let tempFiles := [inputFile, outputFile]
    let wr := ZFile.WriteFile env tOut.2 inputFile ((a.input_data.getD []).take a.input_len)
    if wr.1 = false then
      ⟨-103, some none, some 0, RemoveTempFiles env wr.2 tempFiles⟩
    else
      zsign_sign_macho_mem_cert env wr.2 a tempFiles inputFile outputFile

/-! ## `zsign.cpp` -/

/-- The local variables of `main` that the option loop sets. -/
structure Options where
  bForce : Bool
  bAdhoc : Bool
  bSHA256Only : Bool
  strCertFile : String
  strPKeyFile : String
  strProvFile : String
  strPassword : String
  strOutputFile : String
  strEntitleFile : String
  deriving DecidableEq, Repr

/-- `usage`: prints the help text and returns -1. -/
def usage : Int := -1

/-- The body of the `getopt_long` loop of `main` for one `(opt, optarg)` that
`getopt_long` returned: either an early return code, or the variables and the
world it leaves.  `SetLogLever(E_DEBUG)` turns `IsDebug()` on,
`SetLogLever(E_NONE)` turns it off. -/
def optionStep (env : Env) (w : World) (o : Options) (opt : Char) (optarg : String) :
    Int ⊕ (Options × World) :=
  if opt = 'd' then Sum.inr (o, { w with debug := true })
  else if opt = 'f' then Sum.inr ({ o with bForce := true }, w)
  else if opt = 'c' then Sum.inr ({ o with strCertFile := env.GetFullPath w.fs optarg }, w)
  else if opt = 'k' then Sum.inr ({ o with strPKeyFile := env.GetFullPath w.fs optarg }, w)
  else if opt = 'm' then Sum.inr ({ o with strProvFile := env.GetFullPath w.fs optarg }, w)
  else if opt = 'a' then Sum.inr ({ o with bAdhoc := true }, w)
  else if opt = 'p' then Sum.inr ({ o with strPassword := optarg }, w)
  else if opt = 'e' then Sum.inr ({ o with strEntitleFile := env.GetFullPath w.fs optarg }, w)
  else if opt = 'o' then Sum.inr ({ o with strOutputFile := env.GetFullPath w.fs optarg }, w)
  else if opt = '2' then Sum.inr ({ o with bSHA256Only := true }, w)
  else if opt = 'q' then Sum.inr (o, { w with debug := false })
  else if opt = 'v' then Sum.inl 0
  else if opt = 'h' ∨ opt = '?' then Sum.inl usage
  else Sum.inr (o, w)

/-- The `getopt_long` loop of `main` over the `(opt, optarg)` pairs that
`getopt_long` returns in turn. -/
def optionLoop (env : Env) (w : World) (o : Options) :
    List (Char × String) → Int ⊕ (Options × World)
  | [] => Sum.inr (o, w)
  | (opt, optarg) :: rest =>
    match optionStep env w o opt optarg with
    | Sum.inl code => Sum.inl code
    | Sum.inr (o1, w1) => optionLoop env w1 o1 rest

/-- The initial values of the variables of `main`. -/
def Options.init : Options :=
  { bForce := false, bAdhoc := false, bSHA256Only := false, strCertFile := "",
    strPKeyFile := "", strProvFile := "", strPassword := "", strOutputFile := "",
    strEntitleFile := "" }

/-- The body of `main` after the option loop (source lines 132 to 176);
`operands` is `argv` from `optind` on. -/
def mainAfterOptions (env : Env) (w : World) (o : Options) (operands : List String) :
    Int × World :=
  match operands with
  | [] => (usage, w)
  | arg :: _ =>
    let strInputMachO := env.GetFullPath w.fs arg
    if env.IsFileExists w.fs strInputMachO = false ∨ env.IsFolder w.fs strInputMachO = true then
      (-1, w)
    else if o.bAdhoc = false ∧ (o.strPKeyFile = "" ∨ o.strProvFile = "") then
      (-1, w)
    else
      let w1 := if w.debug = true then (ZFile.CreateFolder env w "./.zsign_debug").2 else w
      let p := PrepareTargetPath env w1 strInputMachO o.strOutputFile
      if p.1 = false then
        (-1, p.2.2)
      else
        let strTargetMachO := p.2.1
        let m := ZMachO.Init env p.2.2 strTargetMachO
        if m.1 = false then
          (-1, m.2)
        else
          let zsa : AssetArgs :=
            { certFile := o.strCertFile, pkeyFile := o.strPKeyFile,
              provFile := o.strProvFile, entitlementsFile := o.strEntitleFile,
              passwd := o.strPassword, bAdhoc := o.bAdhoc, bSHA256Only := o.bSHA256Only }
          let i := ZSignAsset.Init env m.2 zsa
          if i.1 = false then
            (-1, i.2)
          else
            let s := ZMachO.Sign env i.2 strTargetMachO zsa o.bForce
            (if s.1 = true then 0 else -1, s.2)

/-- `main`, on the options `getopt_long` yields and the remaining operands. -/
def main (env : Env) (w : World) (opts : List (Char × String)) (operands : List String) :
    Int × World :=
  match optionLoop env w Options.init opts with
  | Sum.inl code => (code, w)
  | Sum.inr (o, w1) => mainAfterOptions env w1 o operands

/-! ## An in-memory instance of the collaborators

Used to run the entry points on concrete inputs; the general theorems do not
depend on it.  Paths are already absolute, a write stores as many bytes as the
free space allows and fails when some are left over (the file it opened
stays), and the cryptographic checks are replaced by byte comparisons. -/

namespace Mem

/-- Stand-in for `ZFile::ReadFile`: the content of the regular file at
`path`, if there is one. -/
def content (fs : FS) (path : String) : Option Bytes :=
  fs.files.lookup path

/-- Stand-in for `ZFile::IsFolder`. -/
def isFolder (fs : FS) (path : String) : Bool :=
  fs.folders.contains path

/-- Stand-in for `ZFile::IsFileExists`: `path` names a file or a folder. -/
def isFileExists (fs : FS) (path : String) : Bool :=
  (content fs path).isSome || isFolder fs path

/-- Stand-in for `ZFile::CreateFolder`: fails when a file has that name. -/
def createFolder (fs : FS) (path : String) : Bool × FS :=
  if isFolder fs path then (true, fs)
  else if (content fs path).isSome then (false, fs)
  else (true, { fs with folders := path :: fs.folders })

/-- Modelled from the spec: `ZFile::WriteFile`, whose code is not in the two
files, can fail on a full disk; here the file is opened for writing
(truncated), as many bytes as fit are stored, and the write fails when some
are left over. -/
def writeFile (fs : FS) (path : String) (data : Bytes) : Bool × FS :=
  if isFolder fs path then (false, fs)
  else
    let avail := fs.free + ((content fs path).getD []).length
    let stored := data.take avail
    (decide (data.length ≤ avail),
      { fs with files := (path, stored) :: fs.files.filter (fun e => e.1 != path),
                free := avail - stored.length })

/-- Stand-in for `ZFile::CopyFile`: the source must exist, the rest is a write. -/
def copyFile (fs : FS) (src dst : String) : Bool × FS :=
  match content fs src with
  | none => (false, fs)
  | some c => writeFile fs dst c

/-- Stand-in for `ZFile::RemoveFile`: fails when there is no such file. -/
def removeFile (fs : FS) (path : String) : Bool × FS :=
  match content fs path with
  | none => (false, fs)
  | some c =>
    (true, { fs with files := fs.files.filter (fun e => e.1 != path),
                     free := fs.free + c.length })

/-- The magic number of a 64-bit little-endian Mach-O. -/
def magic64 : Bytes := [0xCF, 0xFA, 0xED, 0xFE]

/-- The stand-in for an embedded signature. -/
def sigBlob : Bytes := [0xFA, 0xDE, 0x0C, 0xC0]

/-- Modelled from the spec: `ZMachO::Init`, whose code is not in the two
files, opens a container or fails with "not a Mach-O"; here the file must
exist and start with the magic number. -/
def machoInit (fs : FS) (path : String) : Bool :=
  match content fs path with
  | none => false
  | some c => decide (c.take 4 = magic64)

/-- Modelled from the spec: `ZSignAsset::Init`, whose code is not in the two
files, resolves to ad-hoc whatever the other inputs are, and otherwise fails
when key or profile is missing or the key does not match the certificate;
here a separately given certificate matches when it carries the key's bytes. -/
def assetInit (fs : FS) (zsa : AssetArgs) : Bool :=
  if zsa.bAdhoc then true
  else
    (content fs zsa.pkeyFile).isSome && (content fs zsa.provFile).isSome
      && (zsa.certFile == "" || content fs zsa.certFile == content fs zsa.pkeyFile)

/-- Whether the content already carries the signature stand-in. -/
def isSigned (c : Bytes) : Bool :=
  decide (c.reverse.take 4 = sigBlob.reverse)

/-- Modelled from the spec: `ZMachO::Sign`, whose code is not in the two
files, signs in place and refuses an already signed file unless forced; here
the signature stand-in is appended to the target. -/
def machoSign (fs : FS) (path : String) (_zsa : AssetArgs) (bForce : Bool) : Bool × FS :=
  match content fs path with
  | none => (false, fs)
  | some c =>
    if isSigned c then
      if bForce then (true, fs) else (false, fs)
    else
      writeFile fs path (c ++ sigBlob)

end Mem

/-- The in-memory collaborators. -/
def memEnv : Env :=
  { GetFullPath := fun _ s => s
    GetRealPath := fun _ s => s
    IsFileExists := Mem.isFileExists
    IsFolder := Mem.isFolder
    CreateFolder := Mem.createFolder
    CopyFile := Mem.copyFile
    WriteFile := Mem.writeFile
    ReadFile := Mem.content
    RemoveFile := Mem.removeFile
    GetMicroSecond := fun n => 1000 + n
    machoInit := Mem.machoInit
    assetInit := Mem.assetInit
    machoSign := Mem.machoSign
    malloc := fun _ => true }

/-- A world with the given file system, debug logging off, nothing done yet. -/
def World.start (fs : FS) : World :=
  { fs := fs, debug := false, sSeq := 0, sOnce := false, ticks := 0, trace := [] }

/-- A small unsigned Mach-O. -/
def sampleMachO : Bytes := [0xCF, 0xFA, 0xED, 0xFE, 7, 0, 0, 1]

/-- A disk holding the binary `/in`, a key, a matching and a foreign
certificate, a profile, a file that is no Mach-O, and a binary that is
already signed. -/
def sampleFS : FS :=
  { files := [("/in", sampleMachO), ("/key", [1, 2, 3]), ("/cert", [1, 2, 3]),
      ("/othercert", [9, 9, 9]), ("/prov", [4, 5]), ("/notes", [1, 2, 3, 4, 5]),
      ("/signed", sampleMachO ++ Mem.sigBlob)],
    folders := ["/"],
    free := 1000 }

/-! ## The stages shared by `zsign_sign_macho` and `main`

The values both functions compute on their way from the debug-folder step to
the call of Sign, named so that statements can refer to them. -/

/-- The world after the debug-folder step (`if (ZLog::IsDebug()) ...`). -/
def debugFolder (env : Env) (w : World) : World :=
  if w.debug = true then (ZFile.CreateFolder env w "./.zsign_debug").2 else w

/-- The call of `PrepareTargetPath` that follows it. -/
def preparedAt (env : Env) (w : World) (inputFile outputFile : String) :
    Bool × String × World :=
  PrepareTargetPath env (debugFolder env w) inputFile outputFile

/-- The call of `ZMachO::Init` on the prepared target. -/
def openedAt (env : Env) (w : World) (inputFile outputFile : String) : Bool × World :=
  ZMachO.Init env (preparedAt env w inputFile outputFile).2.2
    (preparedAt env w inputFile outputFile).2.1

/-- The call of `ZSignAsset::Init` after a successful open. -/
def loadedAt (env : Env) (w : World) (inputFile outputFile : String) (zsa : AssetArgs) :
    Bool × World :=
  ZSignAsset.Init env (openedAt env w inputFile outputFile).2 zsa

/-- The call of `ZMachO::Sign` after a successful asset initialisation. -/
def signedAt (env : Env) (w : World) (inputFile outputFile : String) (zsa : AssetArgs)
    (bForce : Bool) : Bool × World :=
  ZMachO.Sign env (loadedAt env w inputFile outputFile zsa).2
    (preparedAt env w inputFile outputFile).2.1 zsa bForce

/-- The four stages in sequence, returning `c3`, `c4`, `c5`, `c6` at the
first one that fails and 0 when none does. -/
def signFrom (env : Env) (w : World) (inputFile outputFile : String) (zsa : AssetArgs)
    (bForce : Bool) (c3 c4 c5 c6 : Int) : Int × World :=
  if (preparedAt env w inputFile outputFile).1 = false then
    (c3, (preparedAt env w inputFile outputFile).2.2)
  else if (openedAt env w inputFile outputFile).1 = false then
    (c4, (openedAt env w inputFile outputFile).2)
  else if (loadedAt env w inputFile outputFile zsa).1 = false then
    (c5, (loadedAt env w inputFile outputFile zsa).2)
  else
    (if (signedAt env w inputFile outputFile zsa bForce).1 = true then 0 else c6,
      (signedAt env w inputFile outputFile zsa bForce).2)

/-! ### In `zsign_sign_macho` -/

/-- The test of source line 120 passes: the input path is non-empty, exists,
and is not a folder. -/
def inputOk (env : Env) (fs : FS) (input_macho : Option String) : Bool :=
  decide (SafePath env fs input_macho ≠ "")
    && env.IsFileExists fs (SafePath env fs input_macho)
    && !env.IsFolder fs (SafePath env fs input_macho)

/-- The test of source line 136 passes: ad-hoc, or both key and profile given. -/
def keysOk (env : Env) (fs : FS) (a : SignArgs) : Bool :=
  decide (a.adhoc ≠ 0)
    || (decide (SafePath env fs a.pkey_file ≠ "") && decide (SafePath env fs a.prov_file ≠ ""))

/-- The call of `PrepareTargetPath` at source line 146. -/
def prepared (env : Env) (w : World) (input_macho output_macho : Option String) :
    Bool × String × World :=
  preparedAt env w (SafePath env w.fs input_macho) (SafePath env w.fs output_macho)

/-- The arguments handed to `ZSignAsset::Init` at source line 157. -/
def assetArgs (env : Env) (fs : FS) (a : SignArgs) : AssetArgs :=
  { certFile := SafePath env fs a.cert_file, pkeyFile := SafePath env fs a.pkey_file,
    provFile := SafePath env fs a.prov_file,
    entitlementsFile := SafePath env fs a.entitlements_file,
    passwd := SafeString a.password, bAdhoc := decide (a.adhoc ≠ 0),
    bSHA256Only := decide (a.sha256_only ≠ 0) }

/-- The call of `ZMachO::Init` at source line 151. -/
def opened (env : Env) (w : World) (input_macho output_macho : Option String) :
    Bool × World :=
  openedAt env w (SafePath env w.fs input_macho) (SafePath env w.fs output_macho)

/-- The call of `ZSignAsset::Init` at source line 157. -/
def loaded (env : Env) (w : World) (a : SignArgs) : Bool × World :=
  loadedAt env w (SafePath env w.fs a.input_macho) (SafePath env w.fs a.output_macho)
    (assetArgs env w.fs a)

/-- The call of `ZMachO::Sign` at source line 164. -/
def signed (env : Env) (w : World) (a : SignArgs) : Bool × World :=
  signedAt env w (SafePath env w.fs a.input_macho) (SafePath env w.fs a.output_macho)
    (assetArgs env w.fs a) (decide (a.force_sign ≠ 0))

/-- The failure categories of `zsign_sign_macho`, in the order of its checks. -/
inductive Stage where
  | input
  | keys
  | copy
  | machoOpen
  | asset
  | sign
  deriving DecidableEq, Repr

/-- The code documented for each failure category. -/
def Stage.code : Stage → Int
  | Stage.input => -1
  | Stage.keys => -2
  | Stage.copy => -3
  | Stage.machoOpen => -4
  | Stage.asset => -5
  | Stage.sign => -6

/-- The first stage that fails, if any. -/
def firstFailure (env : Env) (w : World) (a : SignArgs) : Option Stage :=
  if inputOk env w.fs a.input_macho = false then some Stage.input
  else if keysOk env w.fs a = false then some Stage.keys
  else if (prepared env w a.input_macho a.output_macho).1 = false then some Stage.copy
  else if (opened env w a.input_macho a.output_macho).1 = false then some Stage.machoOpen
  else if (loaded env w a).1 = false then some Stage.asset
  else if (signed env w a).1 = false then some Stage.sign
  else none

/-- The code announced by the first failing stage; 0 when none fails. -/
def resultCode : Option Stage → Int
  | none => 0
  | some s => s.code

/-! ### In `main` -/

/-- The arguments `main` hands to `ZSignAsset::Init` at source line 163. -/
def Options.assetArgs (o : Options) : AssetArgs :=
  { certFile := o.strCertFile, pkeyFile := o.strPKeyFile, provFile := o.strProvFile,
    entitlementsFile := o.strEntitleFile, passwd := o.strPassword, bAdhoc := o.bAdhoc,
    bSHA256Only := o.bSHA256Only }

/-- The tests of source lines 137 and 142 of `main` pass for the operand `arg`. -/
def cliChecksOk (env : Env) (fs : FS) (o : Options) (arg : String) : Bool :=
  env.IsFileExists fs (env.GetFullPath fs arg) && !env.IsFolder fs (env.GetFullPath fs arg)
    && (o.bAdhoc || (decide (o.strPKeyFile ≠ "") && decide (o.strProvFile ≠ "")))

/-! ## Concrete inputs -/

/-- A call that names the binary `/in` and asks for a copy at `/out`, with the
given certificate and ad-hoc flag, key `/key` and profile `/prov`. -/
def sampleArgs (cert : Option String) (adhoc : Int) : SignArgs :=
  { input_macho := some "/in", output_macho := some "/out", cert_file := cert,
    pkey_file := some "/key", prov_file := some "/prov", password := none,
    entitlements_file := none, adhoc := adhoc, sha256_only := 0, force_sign := 0 }

/-- A call of the memory interface: the sample binary, a certificate, a
matching key and a profile, no entitlements, output cells ready. -/
def sampleMemArgs : MemArgs :=
  { input_data := some sampleMachO, input_len := 8, cert_data := some [1, 2, 3],
    cert_len := 3, pkey_data := some [1, 2, 3], pkey_len := 3, prov_data := some [4, 5],
    prov_len := 2, password := none, entitlements_data := none, entitlements_len := 0,
    adhoc := 0, sha256_only := 0, force_sign := 0, output_data := some none,
    output_len := some 77 }

/-- The sample disk with room for ten more bytes only. -/
def nearlyFullFS : FS := { sampleFS with free := 10 }

/-- The sample disk with room for three more bytes only. -/
def fullFS : FS := { sampleFS with free := 3 }

/-- The events a run appended to the trace. -/
def newEvents (before after : World) : List Event :=
  after.trace.drop before.trace.length

/-! ## Theorems -/

/-- Events appended to a trace are recovered by dropping the old ones. -/
theorem newEvents_append (w w1 : World) (l : List Event) (h : w1.trace = w.trace ++ l) :
    newEvents w w1 = l := by
  simp [newEvents, h]

/-- What `PrepareTargetPath` appends to the trace. -/
theorem PrepareTargetPath_trace (env : Env) (w : World) (i o : String) :
    (PrepareTargetPath env w i o).2.2.trace =
      w.trace ++ (if o = "" ∨ o = i then [] else [Event.copyFile i o (env.CopyFile w.fs i o).1]) := by
  unfold PrepareTargetPath ZFile.CopyFile
  by_cases h : o = "" ∨ o = i
  · simp [h]
  · by_cases hc : (env.CopyFile w.fs i o).1 = false <;> simp [h, hc]

/-- What the debug-folder step appends to the trace. -/
theorem debugFolder_trace (env : Env) (w : World) :
    (debugFolder env w).trace =
      w.trace ++ (if w.debug = true then
        [Event.createFolder "./.zsign_debug" (env.CreateFolder w.fs "./.zsign_debug").1]
        else []) := by
  unfold debugFolder ZFile.CreateFolder
  by_cases h : w.debug = true <;> simp [h]

/-- The events of target preparation: the debug folder, then the copy. -/
theorem preparedAt_newEvents (env : Env) (w : World) (i o : String) :
    newEvents w (preparedAt env w i o).2.2 =
      (if w.debug = true then
        [Event.createFolder "./.zsign_debug" (env.CreateFolder w.fs "./.zsign_debug").1]
        else [])
      ++ (if o = "" ∨ o = i then []
          else [Event.copyFile i o (env.CopyFile (debugFolder env w).fs i o).1]) := by
  apply newEvents_append
  unfold preparedAt
  rw [PrepareTargetPath_trace, debugFolder_trace, List.append_assoc]

/-- Target preparation only appends to the trace. -/
theorem preparedAt_trace (env : Env) (w : World) (i o : String) :
    (preparedAt env w i o).2.2.trace = w.trace ++ newEvents w (preparedAt env w i o).2.2 := by
  rw [preparedAt_newEvents]
  unfold preparedAt
  rw [PrepareTargetPath_trace, debugFolder_trace, List.append_assoc]

/-- Target preparation attempts nothing but the debug folder and the copy. -/
theorem preparedAt_events (env : Env) (w : World) (i o : String) :
    ∀ e ∈ newEvents w (preparedAt env w i o).2.2,
      (∃ p ok, e = Event.createFolder p ok) ∨ (∃ s d ok, e = Event.copyFile s d ok) := by
  rw [preparedAt_newEvents]
  intro e he
  rw [List.mem_append] at he
  rcases he with he | he
  · split_ifs at he <;> simp_all
  · split_ifs at he <;> simp_all

/-- Without debug logging and without a distinct output path, target
preparation leaves the world as it is. -/
theorem preparedAt_in_place (env : Env) (w : World) (i o : String)
    (hd : w.debug = false) (ho : o = "" ∨ o = i) :
    (preparedAt env w i o).2.2 = w := by
  unfold preparedAt PrepareTargetPath debugFolder
  simp [hd, ho]

/-- The events of the four stages, by the stage the run stops at. -/
theorem signFrom_newEvents (env : Env) (w : World) (i o : String) (zsa : AssetArgs)
    (f : Bool) (c3 c4 c5 c6 : Int) :
    newEvents w (signFrom env w i o zsa f c3 c4 c5 c6).2 =
      if (preparedAt env w i o).1 = false then newEvents w (preparedAt env w i o).2.2
      else if (openedAt env w i o).1 = false then
        newEvents w (preparedAt env w i o).2.2
          ++ [Event.machoInit (preparedAt env w i o).2.1 false]
      else if (loadedAt env w i o zsa).1 = false then
        newEvents w (preparedAt env w i o).2.2
          ++ [Event.machoInit (preparedAt env w i o).2.1 true, Event.assetInit false]
      else
        newEvents w (preparedAt env w i o).2.2
          ++ [Event.machoInit (preparedAt env w i o).2.1 true, Event.assetInit true,
              Event.machoSign (preparedAt env w i o).2.1 (signedAt env w i o zsa f).1] := by
  unfold signFrom
  have hp := preparedAt_trace env w i o
  split_ifs with h3 h4 h5
  · rfl
  · apply newEvents_append
    rw [openedAt] at h4 ⊢
    simp only [ZMachO.Init] at h4 ⊢
    rw [hp, h4]
    simp
  · apply newEvents_append
    have h4t : (openedAt env w i o).1 = true := by simpa using h4
    rw [loadedAt] at h5 ⊢
    simp only [ZSignAsset.Init] at h5 ⊢
    rw [h5]
    rw [openedAt] at h4t ⊢
    simp only [ZMachO.Init] at h4t ⊢
    rw [hp, h4t]
    simp
  all_goals
    apply newEvents_append
    have h4t : (openedAt env w i o).1 = true := by simpa using h4
    have h5t : (loadedAt env w i o zsa).1 = true := by simpa using h5
    rw [signedAt]
    simp only [ZMachO.Sign]
    rw [loadedAt] at h5t ⊢
    simp only [ZSignAsset.Init] at h5t ⊢
    rw [h5t]
    rw [openedAt] at h4t ⊢
    simp only [ZMachO.Init] at h4t ⊢
    rw [hp, h4t]
    simp

/-- A run of the four stages in which Sign is not reached leaves the file
system target preparation left. -/
theorem signFrom_fs_before_sign (env : Env) (w : World) (i o : String) (zsa : AssetArgs)
    (f : Bool) (c3 c4 c5 c6 : Int)
    (h : (preparedAt env w i o).1 = false ∨ (openedAt env w i o).1 = false
      ∨ (loadedAt env w i o zsa).1 = false) :
    (signFrom env w i o zsa f c3 c4 c5 c6).2.fs = (preparedAt env w i o).2.2.fs := by
  unfold signFrom
  split_ifs <;> simp_all [loadedAt, openedAt, ZMachO.Init, ZSignAsset.Init]

/-- How `zsign_sign_macho` runs, stage by stage. -/
theorem zsign_sign_macho_eq_signFrom (env : Env) (w : World) (a : SignArgs) :
    zsign_sign_macho env w a =
      if inputOk env w.fs a.input_macho = false then (-1, w)
      else if keysOk env w.fs a = false then (-2, w)
      else signFrom env w (SafePath env w.fs a.input_macho) (SafePath env w.fs a.output_macho)
        (assetArgs env w.fs a) (decide (a.force_sign ≠ 0)) (-3) (-4) (-5) (-6) := by
  unfold zsign_sign_macho
  simp only [inputOk, keysOk, signFrom, signedAt, loadedAt, openedAt, preparedAt, debugFolder,
    assetArgs]
  by_cases h1 : SafePath env w.fs a.input_macho = ""
  · simp [h1]
  by_cases h2 : env.IsFileExists w.fs (SafePath env w.fs a.input_macho) = true
  swap
  · simp [h1, h2]
  by_cases h3 : env.IsFolder w.fs (SafePath env w.fs a.input_macho) = true
  · simp [h1, h2, h3]
  by_cases h4 : a.adhoc = 0
  · by_cases h5 : SafePath env w.fs a.pkey_file = ""
    · simp [h1, h2, h3, h4, h5]
    by_cases h6 : SafePath env w.fs a.prov_file = ""
    · simp [h1, h2, h3, h4, h5, h6]
    simp [h1, h2, h3, h4, h5, h6]
  · simp [h1, h2, h3, h4]

/-- The same, with the stages of `zsign_sign_macho` spelled out. -/
theorem zsign_sign_macho_eq (env : Env) (w : World) (a : SignArgs) :
    zsign_sign_macho env w a =
      if inputOk env w.fs a.input_macho = false then (-1, w)
      else if keysOk env w.fs a = false then (-2, w)
      else if (prepared env w a.input_macho a.output_macho).1 = false then
        (-3, (prepared env w a.input_macho a.output_macho).2.2)
      else if (opened env w a.input_macho a.output_macho).1 = false then
        (-4, (opened env w a.input_macho a.output_macho).2)
      else if (loaded env w a).1 = false then (-5, (loaded env w a).2)
      else (if (signed env w a).1 = true then 0 else -6, (signed env w a).2) := by
  rw [zsign_sign_macho_eq_signFrom]
  rfl

/-- How `main` runs after its option loop, stage by stage. -/
theorem mainAfterOptions_eq_signFrom (env : Env) (w : World) (o : Options) (arg : String)
    (rest : List String) :
    mainAfterOptions env w o (arg :: rest) =
      if cliChecksOk env w.fs o arg = false then (-1, w)
      else signFrom env w (env.GetFullPath w.fs arg) o.strOutputFile o.assetArgs o.bForce
        (-1) (-1) (-1) (-1) := by
  unfold mainAfterOptions
  simp only [cliChecksOk, signFrom, signedAt, loadedAt, openedAt, preparedAt, debugFolder,
    Options.assetArgs]
  by_cases h2 : env.IsFileExists w.fs (env.GetFullPath w.fs arg) = true
  swap
  · simp [h2]
  by_cases h3 : env.IsFolder w.fs (env.GetFullPath w.fs arg) = true
  · simp [h2, h3]
  by_cases h4 : o.bAdhoc = true
  · simp [h2, h3, h4]
  · by_cases h5 : o.strPKeyFile = ""
    · simp [h2, h3, h4, h5]
    by_cases h6 : o.strProvFile = ""
    · simp [h2, h3, h4, h5, h6]
    simp [h2, h3, h4, h5, h6]

/-- One round of the option loop: an early return is 0 (version) or -1
(usage); otherwise the file system and the trace are as before, and the
ad-hoc flag is set when it was set or the option is `-a`. -/
theorem optionStep_spec (env : Env) (w : World) (o : Options) (opt : Char)
    (optarg : String) :
    (∀ c, optionStep env w o opt optarg = Sum.inl c → c = 0 ∨ c = -1)
    ∧ (∀ o1 w1, optionStep env w o opt optarg = Sum.inr (o1, w1) →
        w1.fs = w.fs ∧ w1.trace = w.trace
        ∧ (o.bAdhoc = true ∨ opt = 'a' → o1.bAdhoc = true)) := by
  unfold optionStep
  by_cases hd : opt = 'd'
  · rw [if_pos hd]
    refine ⟨fun c1 hc => (by cases hc), fun o1 w1 hr => ?_⟩
    cases hr
    refine ⟨rfl, rfl, fun ha => ?_⟩
    rcases ha with ha | ha
    · exact ha
    · rw [hd] at ha
      exact absurd ha (by decide)
  rw [if_neg hd]
  by_cases hf : opt = 'f'
  · rw [if_pos hf]
    refine ⟨fun c1 hc => (by cases hc), fun o1 w1 hr => ?_⟩
    cases hr
    refine ⟨rfl, rfl, fun ha => ?_⟩
    rcases ha with ha | ha
    · exact ha
    · rw [hf] at ha
      exact absurd ha (by decide)
  rw [if_neg hf]
  by_cases hc : opt = 'c'
  · rw [if_pos hc]
    refine ⟨fun c1 hc => (by cases hc), fun o1 w1 hr => ?_⟩
    cases hr
    refine ⟨rfl, rfl, fun ha => ?_⟩
    rcases ha with ha | ha
    · exact ha
    · rw [hc] at ha
      exact absurd ha (by decide)
  rw [if_neg hc]
  by_cases hk : opt = 'k'
  · rw [if_pos hk]
    refine ⟨fun c1 hc => (by cases hc), fun o1 w1 hr => ?_⟩
    cases hr
    refine ⟨rfl, rfl, fun ha => ?_⟩
    rcases ha with ha | ha
    · exact ha
    · rw [hk] at ha
      exact absurd ha (by decide)
  rw [if_neg hk]
  by_cases hm : opt = 'm'
  · rw [if_pos hm]
    refine ⟨fun c1 hc => (by cases hc), fun o1 w1 hr => ?_⟩
    cases hr
    refine ⟨rfl, rfl, fun ha => ?_⟩
    rcases ha with ha | ha
    · exact ha
    · rw [hm] at ha
      exact absurd ha (by decide)
  rw [if_neg hm]
  by_cases ha1 : opt = 'a'
  · rw [if_pos ha1]
    refine ⟨fun c1 hc => (by cases hc), fun o1 w1 hr => ?_⟩
    cases hr
    exact ⟨rfl, rfl, fun _ => rfl⟩
  rw [if_neg ha1]
  by_cases hp : opt = 'p'
  · rw [if_pos hp]
    refine ⟨fun c1 hc => (by cases hc), fun o1 w1 hr => ?_⟩
    cases hr
    refine ⟨rfl, rfl, fun ha => ?_⟩
    rcases ha with ha | ha
    · exact ha
    · exact absurd ha ha1
  rw [if_neg hp]
  by_cases he : opt = 'e'
  · rw [if_pos he]
    refine ⟨fun c1 hc => (by cases hc), fun o1 w1 hr => ?_⟩
    cases hr
    refine ⟨rfl, rfl, fun ha => ?_⟩
    rcases ha with ha | ha
    · exact ha
    · exact absurd ha ha1
  rw [if_neg he]
  by_cases ho : opt = 'o'
  · rw [if_pos ho]
    refine ⟨fun c1 hc => (by cases hc), fun o1 w1 hr => ?_⟩
    cases hr
    refine ⟨rfl, rfl, fun ha => ?_⟩
    rcases ha with ha | ha
    · exact ha
    · exact absurd ha ha1
  rw [if_neg ho]
  by_cases hx : opt = '2'
  · rw [if_pos hx]
    refine ⟨fun c1 hc => (by cases hc), fun o1 w1 hr => ?_⟩
    cases hr
    refine ⟨rfl, rfl, fun ha => ?_⟩
    rcases ha with ha | ha
    · exact ha
    · exact absurd ha ha1
  rw [if_neg hx]
  by_cases hq : opt = 'q'
  · rw [if_pos hq]
    refine ⟨fun c1 hc => (by cases hc), fun o1 w1 hr => ?_⟩
    cases hr
    refine ⟨rfl, rfl, fun ha => ?_⟩
    rcases ha with ha | ha
    · exact ha
    · exact absurd ha ha1
  rw [if_neg hq]
  by_cases hv : opt = 'v'
  · rw [if_pos hv]
    refine ⟨fun c1 hc => ?_, fun o1 w1 hr => (by cases hr)⟩
    cases hc
    exact Or.inl rfl
  rw [if_neg hv]
  by_cases hh : opt = 'h' ∨ opt = '?'
  · rw [if_pos hh]
    refine ⟨fun c1 hc => ?_, fun o1 w1 hr => (by cases hr)⟩
    cases hc
    exact Or.inr rfl
  rw [if_neg hh]
  refine ⟨fun c1 hc => (by cases hc), fun o1 w1 hr => ?_⟩
  cases hr
  refine ⟨rfl, rfl, fun ha => ?_⟩
  rcases ha with ha | ha
  · exact ha
  · exact absurd ha ha1

/-- The option loop changes neither the file system nor the trace, and it
leaves the ad-hoc flag set when `-a` is among the options. -/
theorem optionLoop_world (env : Env) (opts : List (Char × String)) :
    ∀ (w : World) (o o1 : Options) (w1 : World),
      optionLoop env w o opts = Sum.inr (o1, w1) →
        w1.fs = w.fs ∧ w1.trace = w.trace
        ∧ (o.bAdhoc = true ∨ (∃ x, ('a', x) ∈ opts) → o1.bAdhoc = true) := by
  induction opts with
  | nil =>
    intro w o o1 w1 h
    simp [optionLoop] at h
    obtain ⟨ho, hw⟩ := h
    subst ho
    subst hw
    exact ⟨rfl, rfl, fun ha => by simpa using ha⟩
  | cons x rest ih =>
    intro w o o1 w1 h
    obtain ⟨opt, optarg⟩ := x
    unfold optionLoop at h
    cases hs : optionStep env w o opt optarg with
    | inl c =>
      rw [hs] at h
      cases h
    | inr r =>
      obtain ⟨o2, w2⟩ := r
      rw [hs] at h
      obtain ⟨hfs, htr, had⟩ := (optionStep_spec env w o opt optarg).2 o2 w2 hs
      obtain ⟨hfs1, htr1, had1⟩ := ih w2 o2 o1 w1 h
      refine ⟨hfs1.trans hfs, htr1.trans htr, fun ha => ?_⟩
      apply had1
      rcases ha with ha | ⟨x, hx⟩
      · exact Or.inl (had (Or.inl ha))
      · rcases List.mem_cons.mp hx with hx | hx
        · exact Or.inl (had (Or.inr (congrArg Prod.fst hx).symm))
        · exact Or.inr ⟨x, hx⟩

/-- An early return of the option loop is 0 (version) or -1 (usage). -/
theorem optionLoop_code (env : Env) (opts : List (Char × String)) :
    ∀ (w : World) (o : Options) (code : Int),
      optionLoop env w o opts = Sum.inl code → code = 0 ∨ code = -1 := by
  induction opts with
  | nil =>
    intro w o code h
    simp [optionLoop] at h
  | cons x rest ih =>
    intro w o code h
    obtain ⟨opt, optarg⟩ := x
    unfold optionLoop at h
    cases hs : optionStep env w o opt optarg with
    | inl c =>
      rw [hs] at h
      have hc : c = code := Sum.inl.inj h
      rw [← hc]
      exact (optionStep_spec env w o opt optarg).1 c hs
    | inr r =>
      obtain ⟨o2, w2⟩ := r
      rw [hs] at h
      exact ih w2 o2 code h

/-- Target preparation and the calls up to Sign, on the four stages: when
`ZSignAsset::Init` was called and failed, the run returns `c5`, Sign was not
attempted, and the file system is the one target preparation left. -/
theorem signFrom_asset_failure (env : Env) (w : World) (i o : String) (zsa : AssetArgs)
    (f : Bool) (c3 c4 c5 c6 : Int)
    (h : Event.assetInit false ∈ newEvents w (signFrom env w i o zsa f c3 c4 c5 c6).2) :
    (signFrom env w i o zsa f c3 c4 c5 c6).1 = c5
    ∧ (signFrom env w i o zsa f c3 c4 c5 c6).2.fs = (preparedAt env w i o).2.2.fs
    ∧ ∀ p ok, Event.machoSign p ok ∉ newEvents w (signFrom env w i o zsa f c3 c4 c5 c6).2 := by
  have hev := preparedAt_events env w i o
  have hnot : Event.assetInit false ∉ newEvents w (preparedAt env w i o).2.2 := by
    intro hm
    rcases hev _ hm with ⟨p, ok, he⟩ | ⟨s, d, ok, he⟩ <;> cases he
  rw [signFrom_newEvents] at h
  by_cases h3 : (preparedAt env w i o).1 = false
  · rw [if_pos h3] at h
    exact absurd h hnot
  rw [if_neg h3] at h
  by_cases h4 : (openedAt env w i o).1 = false
  · rw [if_pos h4] at h
    simp [hnot] at h
  rw [if_neg h4] at h
  by_cases h5 : (loadedAt env w i o zsa).1 = false
  · refine ⟨?_, signFrom_fs_before_sign env w i o zsa f c3 c4 c5 c6 (Or.inr (Or.inr h5)), ?_⟩
    · simp [signFrom, h3, h4, h5]
    · intro p ok hm
      rw [signFrom_newEvents, if_neg h3, if_neg h4, if_pos h5] at hm
      simp at hm
      rcases hev _ hm with ⟨p1, ok1, he⟩ | ⟨s, d, ok1, he⟩ <;> cases he
  · rw [if_neg h5] at h
    simp [hnot] at h

/-- The same for a failed `ZMachO::Init`: the run returns `c4`, neither the
asset initialisation nor Sign was attempted, and the file system is the one
target preparation left. -/
theorem signFrom_open_failure (env : Env) (w : World) (i o : String) (zsa : AssetArgs)
    (f : Bool) (c3 c4 c5 c6 : Int)
    (h3 : (preparedAt env w i o).1 = true) (h4 : (openedAt env w i o).1 = false) :
    signFrom env w i o zsa f c3 c4 c5 c6 = (c4, (openedAt env w i o).2)
    ∧ (signFrom env w i o zsa f c3 c4 c5 c6).2.fs = (preparedAt env w i o).2.2.fs
    ∧ newEvents w (signFrom env w i o zsa f c3 c4 c5 c6).2 =
        newEvents w (preparedAt env w i o).2.2
          ++ [Event.machoInit (preparedAt env w i o).2.1 false] := by
  refine ⟨?_, signFrom_fs_before_sign env w i o zsa f c3 c4 c5 c6 (Or.inr (Or.inl h4)), ?_⟩
  · simp [signFrom, h3, h4]
  · rw [signFrom_newEvents]
    simp [h3, h4]

/-- C4: `zsign_sign_macho` returns the code of the first stage that fails
(-1 invalid input path, -2 missing key or profile when not ad-hoc, -3 target
copy, -4 Mach-O open, -5 asset initialisation, -6 Sign), the six codes are
pairwise distinct and non-zero, and it returns 0 exactly when no stage fails. -/
theorem zsign_sign_macho_returns_first_failure (env : Env) (w : World) (a : SignArgs) :
    (zsign_sign_macho env w a).1 = resultCode (firstFailure env w a)
    ∧ ((zsign_sign_macho env w a).1 = 0 ↔ firstFailure env w a = none)
    ∧ (∀ s t : Stage, s.code = t.code → s = t)
    ∧ (∀ s : Stage, s.code ≠ 0)
    ∧ (Stage.input.code = -1 ∧ Stage.keys.code = -2 ∧ Stage.copy.code = -3
        ∧ Stage.machoOpen.code = -4 ∧ Stage.asset.code = -5 ∧ Stage.sign.code = -6) := by
  have hcode : (zsign_sign_macho env w a).1 = resultCode (firstFailure env w a) := by
    rw [zsign_sign_macho_eq]
    unfold firstFailure
    split_ifs <;> simp_all [resultCode, Stage.code]
  have hinj : ∀ s t : Stage, s.code = t.code → s = t := by
    intro s t
    cases s <;> cases t <;> simp [Stage.code]
  have hne : ∀ s : Stage, s.code ≠ 0 := by
    intro s
    cases s <;> simp [Stage.code]
  refine ⟨hcode, ?_, hinj, hne, by simp [Stage.code]⟩
  rw [hcode]
  cases hf : firstFailure env w a with
  | none => simp [resultCode]
  | some s => simpa [resultCode] using hne s

/-- C2: with a valid input path, `adhoc == 0` and a null or empty `pkey_file`
or `prov_file`, `zsign_sign_macho` returns -2 with the world untouched: no
file created or modified and no external call (copy, Mach-O open, asset
initialisation, Sign) attempted. -/
theorem zsign_sign_macho_missing_key_or_profile (env : Env) (w : World) (a : SignArgs)
    (hin : inputOk env w.fs a.input_macho = true) (hadhoc : a.adhoc = 0)
    (hmiss : (a.pkey_file = none ∨ a.pkey_file = some "")
      ∨ (a.prov_file = none ∨ a.prov_file = some "")) :
    zsign_sign_macho env w a = (-2, w)
    ∧ (zsign_sign_macho env w a).2.fs = w.fs
    ∧ newEvents w (zsign_sign_macho env w a).2 = [] := by
  have hk : keysOk env w.fs a = false := by
    unfold keysOk
    rcases hmiss with (h | h) | (h | h) <;> simp [hadhoc, h, SafePath]
  have h : zsign_sign_macho env w a = (-2, w) := by
    rw [zsign_sign_macho_eq]
    simp [hin, hk]
  rw [h]
  exact ⟨rfl, rfl, by simp [newEvents]⟩

/-- Witness for C2: the key is a null pointer. -/
theorem zsign_sign_macho_missing_key_or_profile_witness :
    zsign_sign_macho memEnv (World.start sampleFS)
        { sampleArgs none 0 with pkey_file := none } = (-2, World.start sampleFS)
    ∧ (zsign_sign_macho memEnv (World.start sampleFS)
        { sampleArgs none 0 with pkey_file := none }).2.fs = (World.start sampleFS).fs
    ∧ newEvents (World.start sampleFS) (zsign_sign_macho memEnv (World.start sampleFS)
        { sampleArgs none 0 with pkey_file := none }).2 = [] :=
  zsign_sign_macho_missing_key_or_profile memEnv (World.start sampleFS)
    { sampleArgs none 0 with pkey_file := none } (by decide) (by decide)
    (Or.inl (Or.inl rfl))

/-- C1, as the code has it: when `ZSignAsset::Init` is called and fails,
`zsign_sign_macho` returns -5 and `main` returns -1 without attempting Sign,
and the file system is left as target preparation left it (the debug folder
when debug logging is on, the copy at a distinct output path, which is not
undone); with debug logging off and no distinct output path it is unchanged. -/
theorem asset_failure_keeps_prepared_target (env : Env) (w : World) :
    (∀ a : SignArgs, Event.assetInit false ∈ newEvents w (zsign_sign_macho env w a).2 →
        (zsign_sign_macho env w a).1 = -5
        ∧ (∀ p ok, Event.machoSign p ok ∉ newEvents w (zsign_sign_macho env w a).2)
        ∧ (zsign_sign_macho env w a).2.fs
            = (prepared env w a.input_macho a.output_macho).2.2.fs
        ∧ (w.debug = false →
            (SafePath env w.fs a.output_macho = ""
              ∨ SafePath env w.fs a.output_macho = SafePath env w.fs a.input_macho) →
            (zsign_sign_macho env w a).2.fs = w.fs))
    ∧ (∀ (opts : List (Char × String)) (operands : List String),
        Event.assetInit false ∈ newEvents w (main env w opts operands).2 →
        (main env w opts operands).1 = -1
        ∧ (∀ p ok, Event.machoSign p ok ∉ newEvents w (main env w opts operands).2)
        ∧ ∃ o w1 arg rest, optionLoop env w Options.init opts = Sum.inr (o, w1)
            ∧ operands = arg :: rest
            ∧ (main env w opts operands).2.fs
                = (preparedAt env w1 (env.GetFullPath w1.fs arg) o.strOutputFile).2.2.fs
            ∧ (w1.debug = false →
                (o.strOutputFile = "" ∨ o.strOutputFile = env.GetFullPath w1.fs arg) →
                (main env w opts operands).2.fs = w.fs)) := by
  constructor
  · intro a h
    rw [zsign_sign_macho_eq_signFrom] at h ⊢
    by_cases h1 : inputOk env w.fs a.input_macho = false
    · simp [h1, newEvents] at h
    by_cases h2 : keysOk env w.fs a = false
    · simp [h1, h2, newEvents] at h
    simp only [if_neg h1, if_neg h2] at h ⊢
    obtain ⟨hc, hfs, hs⟩ := signFrom_asset_failure env w _ _ _ _ _ _ _ _ h
    refine ⟨hc, hs, hfs, ?_⟩
    intro hd ho
    rw [hfs]
    exact congrArg World.fs (preparedAt_in_place env w _ _ hd ho)
  · intro opts operands h
    unfold main at h ⊢
    cases hl : optionLoop env w Options.init opts with
    | inl code =>
      rw [hl] at h
      simp [newEvents] at h
    | inr r =>
      obtain ⟨o, w1⟩ := r
      rw [hl] at h
      obtain ⟨hwfs, hwtr, _⟩ := optionLoop_world env opts w Options.init o w1 hl
      have hne : ∀ w2 : World, newEvents w w2 = newEvents w1 w2 := by
        intro w2
        simp [newEvents, hwtr]
      simp only at h ⊢
      rw [hne] at h
      rw [hne]
      cases operands with
      | nil => simp [mainAfterOptions, newEvents] at h
      | cons arg rest =>
        rw [mainAfterOptions_eq_signFrom] at h ⊢
        by_cases h1 : cliChecksOk env w1.fs o arg = false
        · simp [h1, newEvents] at h
        simp only [if_neg h1] at h ⊢
        obtain ⟨hc, hfs, hs⟩ := signFrom_asset_failure env w1 _ _ _ _ _ _ _ _ h
        refine ⟨hc, hs, o, w1, arg, rest, rfl, rfl, hfs, ?_⟩
        intro hd ho
        rw [hfs, preparedAt_in_place env w1 _ _ hd ho, hwfs]

/-- Witness for C1 as the code has it: a key that does not match the
certificate, signing in place. -/
theorem asset_failure_keeps_prepared_target_witness :
    Event.assetInit false ∈ newEvents (World.start sampleFS)
        (zsign_sign_macho memEnv (World.start sampleFS)
          { sampleArgs (some "/othercert") 0 with output_macho := none }).2
    ∧ (zsign_sign_macho memEnv (World.start sampleFS)
          { sampleArgs (some "/othercert") 0 with output_macho := none }).1 = -5
    ∧ (zsign_sign_macho memEnv (World.start sampleFS)
          { sampleArgs (some "/othercert") 0 with output_macho := none }).2.fs = sampleFS :=
  have h : Event.assetInit false ∈ newEvents (World.start sampleFS)
      (zsign_sign_macho memEnv (World.start sampleFS)
        { sampleArgs (some "/othercert") 0 with output_macho := none }).2 := by decide
  have t := (asset_failure_keeps_prepared_target memEnv (World.start sampleFS)).1
    { sampleArgs (some "/othercert") 0 with output_macho := none } h
  ⟨h, t.1, t.2.2.2 rfl (Or.inl rfl)⟩

/-- C1 fails as stated: the key does not match the certificate `/othercert`,
`ZSignAsset::Init` fails and the call returns -5, yet the output path `/out`,
absent before the call, now holds a copy of the input. -/
theorem asset_failure_after_copy_counterexample :
    (zsign_sign_macho memEnv (World.start sampleFS) (sampleArgs (some "/othercert") 0)).1 = -5
    ∧ Event.assetInit false ∈ newEvents (World.start sampleFS)
        (zsign_sign_macho memEnv (World.start sampleFS) (sampleArgs (some "/othercert") 0)).2
    ∧ Mem.content sampleFS "/out" = none
    ∧ Mem.content
        (zsign_sign_macho memEnv (World.start sampleFS) (sampleArgs (some "/othercert") 0)).2.fs
        "/out" = some sampleMachO
    ∧ (zsign_sign_macho memEnv (World.start sampleFS) (sampleArgs (some "/othercert") 0)).2.fs
        ≠ sampleFS := by
  decide

/-- C7, as the code has it: a call that returns -1 has attempted nothing and
left the world untouched; a call that returns -4 has attempted target
preparation and the Mach-O open only, so the file system is as target
preparation left it (the debug folder when debug logging is on, the copy at a
distinct output path), unchanged when debug logging is off and no distinct
output path is given. -/
theorem input_error_keeps_prepared_target (env : Env) (w : World) (a : SignArgs) :
    ((zsign_sign_macho env w a).1 = -1 → (zsign_sign_macho env w a).2 = w)
    ∧ ((zsign_sign_macho env w a).1 = -4 →
        (zsign_sign_macho env w a).2.fs = (prepared env w a.input_macho a.output_macho).2.2.fs
        ∧ newEvents w (zsign_sign_macho env w a).2 =
            newEvents w (prepared env w a.input_macho a.output_macho).2.2
              ++ [Event.machoInit (prepared env w a.input_macho a.output_macho).2.1 false]
        ∧ (w.debug = false →
            (SafePath env w.fs a.output_macho = ""
              ∨ SafePath env w.fs a.output_macho = SafePath env w.fs a.input_macho) →
            (zsign_sign_macho env w a).2.fs = w.fs)) := by
  constructor
  · intro h
    rw [zsign_sign_macho_eq] at h ⊢
    split_ifs at h ⊢ <;> simp_all
  · intro h
    have h3 : (preparedAt env w (SafePath env w.fs a.input_macho)
        (SafePath env w.fs a.output_macho)).1 = true
        ∧ (openedAt env w (SafePath env w.fs a.input_macho)
        (SafePath env w.fs a.output_macho)).1 = false
        ∧ inputOk env w.fs a.input_macho = true ∧ keysOk env w.fs a = true := by
      rw [zsign_sign_macho_eq] at h
      simp only [prepared, opened] at h
      split_ifs at h <;> simp_all
    obtain ⟨hp, ho, hi, hk⟩ := h3
    have hrun := signFrom_open_failure env w _ _ (assetArgs env w.fs a)
      (decide (a.force_sign ≠ 0)) (-3) (-4) (-5) (-6) hp ho
    rw [zsign_sign_macho_eq_signFrom]
    simp only [hi, hk, Bool.true_eq_false, if_false]
    refine ⟨hrun.2.1, hrun.2.2, ?_⟩
    intro hd hout
    rw [hrun.2.1]
    exact congrArg World.fs (preparedAt_in_place env w _ _ hd hout)

/-- C7 fails as stated: `/notes` is not a Mach-O, `ZMachO::Init` rejects it
and the call returns -4, yet the output path `/out`, absent before the call,
now holds a copy of `/notes`. -/
theorem open_failure_after_copy_counterexample :
    (zsign_sign_macho memEnv (World.start sampleFS)
        { sampleArgs none 1 with input_macho := some "/notes" }).1 = -4
    ∧ Mem.content sampleFS "/out" = none
    ∧ Mem.content
        (zsign_sign_macho memEnv (World.start sampleFS)
          { sampleArgs none 1 with input_macho := some "/notes" }).2.fs
        "/out" = some [1, 2, 3, 4, 5]
    ∧ (zsign_sign_macho memEnv (World.start sampleFS)
          { sampleArgs none 1 with input_macho := some "/notes" }).2.fs ≠ sampleFS := by
  decide

/-- Two runs of the four stages that differ only in the asset arguments
coincide when the asset initialisation was never reached. -/
theorem signFrom_independent_of_assets (env : Env) (w : World) (i o : String)
    (zsa zsa1 : AssetArgs) (f : Bool) (c3 c4 c5 c6 : Int)
    (h : ∀ ok, Event.assetInit ok ∉ newEvents w (signFrom env w i o zsa f c3 c4 c5 c6).2) :
    signFrom env w i o zsa1 f c3 c4 c5 c6 = signFrom env w i o zsa f c3 c4 c5 c6 := by
  by_cases h3 : (preparedAt env w i o).1 = false
  · simp [signFrom, h3]
  by_cases h4 : (openedAt env w i o).1 = false
  · simp [signFrom, h3, h4]
  exfalso
  by_cases h5 : (loadedAt env w i o zsa).1 = false
  · apply h false
    rw [signFrom_newEvents, if_neg h3, if_neg h4, if_pos h5]
    simp
  · apply h true
    rw [signFrom_newEvents, if_neg h3, if_neg h4, if_neg h5]
    simp

/-- The exit code of `main` is 0 or -1. -/
theorem main_code_zero_or_minus_one (env : Env) (w : World) (opts : List (Char × String))
    (operands : List String) :
    (main env w opts operands).1 = 0 ∨ (main env w opts operands).1 = -1 := by
  unfold main
  cases hl : optionLoop env w Options.init opts with
  | inl code => exact optionLoop_code env opts w Options.init code hl
  | inr r =>
    obtain ⟨o, w1⟩ := r
    cases operands with
    | nil => exact Or.inr rfl
    | cons arg rest =>
      simp only
      rw [mainAfterOptions_eq_signFrom]
      unfold signFrom
      split_ifs <;> simp

/-- C8: with ad-hoc requested the certificate, key and profile arguments play
no part in the validation of `zsign_sign_macho` and of `main`: the
missing-key check passes, -2 is never returned, the run goes from the input
check straight to target preparation (which does not read them), and a run
that stops before the asset initialisation is the same run for any other
values of the three arguments.  For `main`, `-a` among the options sets the
ad-hoc flag the body after the option loop runs with. -/
theorem adhoc_ignores_key_material (env : Env) (w : World) :
    (∀ (a : SignArgs) (c k p : Option String), a.adhoc ≠ 0 →
        keysOk env w.fs a = true
        ∧ (zsign_sign_macho env w a).1 ≠ -2
        ∧ zsign_sign_macho env w a =
            (if inputOk env w.fs a.input_macho = false then (-1, w)
              else signFrom env w (SafePath env w.fs a.input_macho)
                (SafePath env w.fs a.output_macho) (assetArgs env w.fs a)
                (decide (a.force_sign ≠ 0)) (-3) (-4) (-5) (-6))
        ∧ ((∀ ok, Event.assetInit ok ∉ newEvents w (zsign_sign_macho env w a).2) →
            zsign_sign_macho env w { a with cert_file := c, pkey_file := k, prov_file := p }
              = zsign_sign_macho env w a))
    ∧ (∀ (o : Options) (c k p arg : String) (rest : List String), o.bAdhoc = true →
        (mainAfterOptions env w o (arg :: rest)).1 ≠ -2
        ∧ mainAfterOptions env w o (arg :: rest) =
            (if env.IsFileExists w.fs (env.GetFullPath w.fs arg) = false
                ∨ env.IsFolder w.fs (env.GetFullPath w.fs arg) = true then (-1, w)
              else signFrom env w (env.GetFullPath w.fs arg) o.strOutputFile o.assetArgs
                o.bForce (-1) (-1) (-1) (-1))
        ∧ ((∀ ok, Event.assetInit ok ∉ newEvents w (mainAfterOptions env w o (arg :: rest)).2) →
            mainAfterOptions env w
                { o with strCertFile := c, strPKeyFile := k, strProvFile := p } (arg :: rest)
              = mainAfterOptions env w o (arg :: rest)))
    ∧ (∀ (opts : List (Char × String)) (operands : List String), (∃ x, ('a', x) ∈ opts) →
        (main env w opts operands).1 ≠ -2
        ∧ ∀ o w1, optionLoop env w Options.init opts = Sum.inr (o, w1) →
            o.bAdhoc = true ∧ main env w opts operands = mainAfterOptions env w1 o operands) := by
  refine ⟨?_, ?_, ?_⟩
  · intro a c k p hadhoc
    have hk : keysOk env w.fs a = true := by simp [keysOk, hadhoc]
    have hk1 : keysOk env w.fs { a with cert_file := c, pkey_file := k, prov_file := p }
        = true := by simp [keysOk, hadhoc]
    have hrun := zsign_sign_macho_eq_signFrom env w a
    simp only [hk, Bool.true_eq_false, if_false] at hrun
    refine ⟨hk, ?_, hrun, ?_⟩
    · rw [hrun]
      unfold signFrom
      split_ifs <;> simp
    · intro hno
      have hrun1 := zsign_sign_macho_eq_signFrom env w
        { a with cert_file := c, pkey_file := k, prov_file := p }
      rw [hrun1]
      simp only [hk1, Bool.true_eq_false, if_false]
      rw [hrun] at hno ⊢
      by_cases h1 : inputOk env w.fs a.input_macho = false
      · simp [h1]
      · simp only [if_neg h1] at hno ⊢
        exact signFrom_independent_of_assets env w _ _ _ _ _ _ _ _ _ hno
  · intro o c k p arg rest hadhoc
    have hrun := mainAfterOptions_eq_signFrom env w o arg rest
    have hrun1 := mainAfterOptions_eq_signFrom env w
      { o with strCertFile := c, strPKeyFile := k, strProvFile := p } arg rest
    have hchk : cliChecksOk env w.fs
        { o with strCertFile := c, strPKeyFile := k, strProvFile := p } arg
        = cliChecksOk env w.fs o arg := by
      simp [cliChecksOk, hadhoc]
    refine ⟨?_, ?_, ?_⟩
    · rw [hrun]
      unfold signFrom
      split_ifs <;> simp
    · rw [hrun]
      by_cases h2 : env.IsFileExists w.fs (env.GetFullPath w.fs arg) = true <;>
        by_cases h3 : env.IsFolder w.fs (env.GetFullPath w.fs arg) = true <;>
        simp [cliChecksOk, hadhoc, h2, h3]
    · intro hno
      rw [hrun1, hchk]
      rw [hrun] at hno ⊢
      by_cases h1 : cliChecksOk env w.fs o arg = false
      · simp [h1]
      · simp only [if_neg h1] at hno ⊢
        exact signFrom_independent_of_assets env w _ _ _ _ _ _ _ _ _ hno
  · intro opts operands ha
    constructor
    · rcases main_code_zero_or_minus_one env w opts operands with h | h <;> rw [h] <;> decide
    · intro o w1 hl
      refine ⟨(optionLoop_world env opts w Options.init o w1 hl).2.2 (Or.inr ha), ?_⟩
      unfold main
      rw [hl]

/-- With non-zero failure codes, the four stages return 0 exactly when Sign
was attempted and returned true. -/
theorem signFrom_zero_iff (env : Env) (w : World) (i o : String) (zsa : AssetArgs)
    (f : Bool) (c3 c4 c5 c6 : Int) (h3 : c3 ≠ 0) (h4 : c4 ≠ 0) (h5 : c5 ≠ 0) (h6 : c6 ≠ 0) :
    (signFrom env w i o zsa f c3 c4 c5 c6).1 = 0 ↔
      ∃ p, Event.machoSign p true ∈ newEvents w (signFrom env w i o zsa f c3 c4 c5 c6).2 := by
  have hev := preparedAt_events env w i o
  have hnot : ∀ p, Event.machoSign p true ∉ newEvents w (preparedAt env w i o).2.2 := by
    intro p hm
    rcases hev _ hm with ⟨p1, ok, he⟩ | ⟨s, d, ok, he⟩ <;> cases he
  rw [signFrom_newEvents]
  unfold signFrom
  by_cases g3 : (preparedAt env w i o).1 = false
  · simp [g3, h3, hnot]
  by_cases g4 : (openedAt env w i o).1 = false
  · simp [g3, g4, h4, hnot]
  by_cases g5 : (loadedAt env w i o zsa).1 = false
  · simp [g3, g4, g5, h5, hnot]
  by_cases g6 : (signedAt env w i o zsa f).1 = true
  · simp [g3, g4, g5, g6]
  · simp [g3, g4, g5, g6, h6, hnot]

/-- C5, as the code has it: `main` exits with 0 or -1 and nothing else; it
exits with 0 exactly on success (the version was asked for, or Sign was
attempted and returned true), so every failure, whether a bad input path, a
bad asset or a signing failure, gives the same code -1. -/
theorem main_exit_code (env : Env) (w : World) (opts : List (Char × String))
    (operands : List String) :
    ((main env w opts operands).1 = 0 ∨ (main env w opts operands).1 = -1)
    ∧ ((main env w opts operands).1 = 0 ↔
        (optionLoop env w Options.init opts = Sum.inl 0
          ∨ ∃ p, Event.machoSign p true ∈ newEvents w (main env w opts operands).2)) := by
  unfold main
  cases hl : optionLoop env w Options.init opts with
  | inl code =>
    have hcode := optionLoop_code env opts w Options.init code hl
    simp only
    constructor
    · exact hcode
    · simp [newEvents]
  | inr r =>
    obtain ⟨o, w1⟩ := r
    obtain ⟨_, hwtr, _⟩ := optionLoop_world env opts w Options.init o w1 hl
    have hne : ∀ w2 : World, newEvents w w2 = newEvents w1 w2 := by
      intro w2
      simp [newEvents, hwtr]
    have hinr : ¬ ((Sum.inr (o, w1) : Int ⊕ (Options × World)) = Sum.inl 0) := by
      intro hc
      cases hc
    simp only [hne, hinr, false_or]
    cases operands with
    | nil => simp [mainAfterOptions, newEvents, usage]
    | cons arg rest =>
      rw [mainAfterOptions_eq_signFrom]
      by_cases h1 : cliChecksOk env w1.fs o arg = false
      · simp [h1, newEvents]
      simp only [if_neg h1]
      refine ⟨?_, signFrom_zero_iff env w1 _ _ _ _ _ _ _ _ (by decide) (by decide)
        (by decide) (by decide)⟩
      unfold signFrom
      split_ifs <;> simp

/-- C5 fails as stated: a missing input path, a certificate that does not
match the key, and an already signed binary without the force flag all make
`main` exit with -1. -/
theorem main_same_code_counterexample :
    (main memEnv (World.start sampleFS) [] ["/missing"]).1 = -1
    ∧ newEvents (World.start sampleFS)
        (main memEnv (World.start sampleFS) [] ["/missing"]).2 = []
    ∧ (main memEnv (World.start sampleFS)
        [('k', "/key"), ('m', "/prov"), ('c', "/othercert")] ["/in"]).1 = -1
    ∧ Event.assetInit false ∈ newEvents (World.start sampleFS)
        (main memEnv (World.start sampleFS)
          [('k', "/key"), ('m', "/prov"), ('c', "/othercert")] ["/in"]).2
    ∧ (main memEnv (World.start sampleFS) [('a', "")] ["/signed"]).1 = -1
    ∧ Event.machoSign "/signed" false ∈ newEvents (World.start sampleFS)
        (main memEnv (World.start sampleFS) [('a', "")] ["/signed"]).2 := by
  decide


/-- C3 fails at this input: the disk has room for the 8-byte input but not
for the 3-byte certificate.  The certificate write fails after storing a
fragment, the call returns -104, and the fragment, which the call wrote,
stays in the temp folder, because its path was never added to `tempFiles`.
The sibling path does clean up: when the input write itself fails (-103) its
fragment is removed, the input path being in `tempFiles` before the write. -/
theorem zsign_sign_macho_mem_leaves_cert_fragment :
    (zsign_sign_macho_mem memEnv (World.start nearlyFullFS) sampleMemArgs).ret = -104
    ∧ Event.writeFile "/zsign_tmp/cert_1002_3.bin" false
        ∈ (zsign_sign_macho_mem memEnv (World.start nearlyFullFS) sampleMemArgs).world.trace
    ∧ Mem.content nearlyFullFS "/zsign_tmp/cert_1002_3.bin" = none
    ∧ Mem.content
        (zsign_sign_macho_mem memEnv (World.start nearlyFullFS) sampleMemArgs).world.fs
        "/zsign_tmp/cert_1002_3.bin" = some [1, 2]
    ∧ (∀ ok, Event.removeFile "/zsign_tmp/cert_1002_3.bin" ok
        ∉ (zsign_sign_macho_mem memEnv (World.start nearlyFullFS) sampleMemArgs).world.trace)
    ∧ (zsign_sign_macho_mem memEnv (World.start fullFS) sampleMemArgs).ret = -103
    ∧ Event.writeFile "/zsign_tmp/input_1000_1.macho" false
        ∈ (zsign_sign_macho_mem memEnv (World.start fullFS) sampleMemArgs).world.trace
    ∧ Event.removeFile "/zsign_tmp/input_1000_1.macho" true
        ∈ (zsign_sign_macho_mem memEnv (World.start fullFS) sampleMemArgs).world.trace
    ∧ (zsign_sign_macho_mem memEnv (World.start fullFS) sampleMemArgs).world.fs.files
        = fullFS.files := by
  decide

/-- The last part of `zsign_sign_macho_mem` hands out a buffer only when it
returns 0. -/
theorem zsign_sign_macho_mem_sign_failure (env : Env) (w : World) (a : MemArgs)
    (tempFiles : List String) (inF outF cF kF pF eF : String)
    (h : (zsign_sign_macho_mem_sign env w a tempFiles inF outF cF kF pF eF).ret ≠ 0) :
    (zsign_sign_macho_mem_sign env w a tempFiles inF outF cF kF pF eF).output_data = some none
    ∧ (zsign_sign_macho_mem_sign env w a tempFiles inF outF cF kF pF eF).output_len
        = some 0 := by
  unfold zsign_sign_macho_mem_sign at h ⊢
  by_cases hz : (zsign_sign_macho env w (memSignArgs a inF outF cF kF pF eF)).1 ≠ 0
  · simp [hz]
  · cases hrd : env.ReadFile (zsign_sign_macho env w (memSignArgs a inF outF cF kF pF eF)).2.fs
        outF with
    | none => simp [hz, ZFile.ReadFile, hrd]
    | some outData =>
      by_cases hm : env.malloc outData.length = false
      · simp [hz, ZFile.ReadFile, hrd, hm]
      · simp [hz, ZFile.ReadFile, hrd, hm] at h

/-- The entitlements part ends in a failure with empty output cells or in the
last part, with the same input and output paths. -/
theorem zsign_sign_macho_mem_entitlements_shape (env : Env) (w : World) (a : MemArgs)
    (tmp : List String) (inF outF cF kF pF : String) :
    (∃ c w1, c ≠ 0 ∧ zsign_sign_macho_mem_entitlements env w a tmp inF outF cF kF pF
        = ⟨c, some none, some 0, w1⟩)
    ∨ (∃ w1 tmp1 cF1 kF1 pF1 eF1, zsign_sign_macho_mem_entitlements env w a tmp inF outF cF kF pF
        = zsign_sign_macho_mem_sign env w1 a tmp1 inF outF cF1 kF1 pF1 eF1) := by
  unfold zsign_sign_macho_mem_entitlements
  split
  · dsimp only
    split
    · exact Or.inl ⟨-107, _, by decide, rfl⟩
    · exact Or.inr ⟨_, _, _, _, _, _, rfl⟩
  · exact Or.inr ⟨_, _, _, _, _, _, rfl⟩

/-- The same for the part that stages the profile. -/
theorem zsign_sign_macho_mem_prov_shape (env : Env) (w : World) (a : MemArgs)
    (tmp : List String) (inF outF cF kF : String) :
    (∃ c w1, c ≠ 0 ∧ zsign_sign_macho_mem_prov env w a tmp inF outF cF kF
        = ⟨c, some none, some 0, w1⟩)
    ∨ (∃ w1 tmp1 cF1 kF1 pF1 eF1, zsign_sign_macho_mem_prov env w a tmp inF outF cF kF
        = zsign_sign_macho_mem_sign env w1 a tmp1 inF outF cF1 kF1 pF1 eF1) := by
  unfold zsign_sign_macho_mem_prov
  split
  · dsimp only
    split
    · exact Or.inl ⟨-106, _, by decide, rfl⟩
    · exact zsign_sign_macho_mem_entitlements_shape env _ a _ inF outF cF kF _
  · exact zsign_sign_macho_mem_entitlements_shape env _ a _ inF outF cF kF _

/-- The same for the part that stages the key. -/
theorem zsign_sign_macho_mem_pkey_shape (env : Env) (w : World) (a : MemArgs)
    (tmp : List String) (inF outF cF : String) :
    (∃ c w1, c ≠ 0 ∧ zsign_sign_macho_mem_pkey env w a tmp inF outF cF
        = ⟨c, some none, some 0, w1⟩)
    ∨ (∃ w1 tmp1 cF1 kF1 pF1 eF1, zsign_sign_macho_mem_pkey env w a tmp inF outF cF
        = zsign_sign_macho_mem_sign env w1 a tmp1 inF outF cF1 kF1 pF1 eF1) := by
  unfold zsign_sign_macho_mem_pkey
  split
  · dsimp only
    split
    · exact Or.inl ⟨-105, _, by decide, rfl⟩
    · exact zsign_sign_macho_mem_prov_shape env _ a _ inF outF cF _
  · exact zsign_sign_macho_mem_prov_shape env _ a _ inF outF cF _

/-- The same for the part that stages the certificate. -/
theorem zsign_sign_macho_mem_cert_shape (env : Env) (w : World) (a : MemArgs)
    (tmp : List String) (inF outF : String) :
    (∃ c w1, c ≠ 0 ∧ zsign_sign_macho_mem_cert env w a tmp inF outF
        = ⟨c, some none, some 0, w1⟩)
    ∨ (∃ w1 tmp1 cF1 kF1 pF1 eF1, zsign_sign_macho_mem_cert env w a tmp inF outF
        = zsign_sign_macho_mem_sign env w1 a tmp1 inF outF cF1 kF1 pF1 eF1) := by
  unfold zsign_sign_macho_mem_cert
  split
  · dsimp only
    split
    · exact Or.inl ⟨-104, _, by decide, rfl⟩
    · exact zsign_sign_macho_mem_pkey_shape env _ a _ inF outF _
  · exact zsign_sign_macho_mem_pkey_shape env _ a _ inF outF _

/-- A call of `zsign_sign_macho_mem` with non-null output cells ends in a
failure with empty output cells or in the last part, run on the input and
output temp paths the call built first. -/
theorem zsign_sign_macho_mem_shape (env : Env) (w : World) (a : MemArgs)
    (h0 : ¬ (a.output_data = none ∨ a.output_len = none)) :
    (∃ c w1, c ≠ 0 ∧ zsign_sign_macho_mem env w a = ⟨c, some none, some 0, w1⟩)
    ∨ (∃ w1 tmp1 cF1 kF1 pF1 eF1, zsign_sign_macho_mem env w a
        = zsign_sign_macho_mem_sign env w1 a tmp1
            (BuildTempFilePath env w "input" (some ".macho")).1
            (BuildTempFilePath env (BuildTempFilePath env w "input" (some ".macho")).2
              "output" (some ".macho")).1
            cF1 kF1 pF1 eF1) := by
  unfold zsign_sign_macho_mem
  rw [if_neg h0]
  split
  · exact Or.inl ⟨-102, _, by decide, rfl⟩
  · dsimp only
    split
    · exact Or.inl ⟨-103, _, by decide, rfl⟩
    · exact zsign_sign_macho_mem_cert_shape env _ a _ _ _

/-- C10: with non-null `output_data` and `output_len`, a call of
`zsign_sign_macho_mem` that returns a non-zero code leaves `*output_data`
NULL and `*output_len` 0; and a null or zero-length input returns -102 with
the world untouched (no temp file, no external call). -/
theorem zsign_sign_macho_mem_failure_outputs (env : Env) (w : World) (a : MemArgs)
    (d : Option Bytes) (l : Nat)
    (hd : a.output_data = some d) (hl : a.output_len = some l) :
    ((zsign_sign_macho_mem env w a).ret ≠ 0 →
        (zsign_sign_macho_mem env w a).output_data = some none
        ∧ (zsign_sign_macho_mem env w a).output_len = some 0)
    ∧ ((a.input_data = none ∨ a.input_len = 0) →
        zsign_sign_macho_mem env w a = ⟨-102, some none, some 0, w⟩) := by
  have h0 : ¬ (a.output_data = none ∨ a.output_len = none) := by simp [hd, hl]
  constructor
  · intro h
    rcases zsign_sign_macho_mem_shape env w a h0 with ⟨c, w1, _, hr⟩ | ⟨w1, t, cF, kF, pF, eF, hr⟩
    · rw [hr]
      exact ⟨rfl, rfl⟩
    · rw [hr] at h ⊢
      exact zsign_sign_macho_mem_sign_failure _ _ _ _ _ _ _ _ _ _ h
  · intro h1
    unfold zsign_sign_macho_mem
    rw [if_neg h0, if_pos h1]

/-- Witness for C10: the disk is nearly full and the call fails with -104;
with a null input it fails with -102 before doing anything. -/
theorem zsign_sign_macho_mem_failure_outputs_witness :
    ((zsign_sign_macho_mem memEnv (World.start nearlyFullFS) sampleMemArgs).ret ≠ 0
      ∧ (zsign_sign_macho_mem memEnv (World.start nearlyFullFS) sampleMemArgs).output_data
          = some none
      ∧ (zsign_sign_macho_mem memEnv (World.start nearlyFullFS) sampleMemArgs).output_len
          = some 0)
    ∧ zsign_sign_macho_mem memEnv (World.start sampleFS)
          { sampleMemArgs with input_data := none }
        = ⟨-102, some none, some 0, World.start sampleFS⟩ :=
  ⟨⟨by decide,
      (zsign_sign_macho_mem_failure_outputs memEnv (World.start nearlyFullFS) sampleMemArgs
        none 77 rfl rfl).1 (by decide)⟩,
    (zsign_sign_macho_mem_failure_outputs memEnv (World.start sampleFS)
      { sampleMemArgs with input_data := none } none 77 rfl rfl).2 (Or.inl rfl)⟩

/-- When removing a file makes it absent and never brings an absent file
back, `RemoveTempFiles` leaves no listed file behind. -/
theorem RemoveTempFiles_removes (env : Env)
    (hrm : ∀ fs p, env.IsFileExists (env.RemoveFile fs p).2 p = false)
    (hkeep : ∀ fs p q, env.IsFileExists fs q = false →
      env.IsFileExists (env.RemoveFile fs p).2 q = false)
    (files : List String) :
    ∀ (w : World) (q : String), q ≠ "" →
      (q ∈ files ∨ env.IsFileExists w.fs q = false) →
      env.IsFileExists (RemoveTempFiles env w files).fs q = false := by
  induction files with
  | nil =>
    intro w q _ h
    rcases h with h | h
    · cases h
    · exact h
  | cons f rest ih =>
    intro w q hq h
    unfold RemoveTempFiles
    by_cases hf : f ≠ ""
    · rw [if_pos hf]
      apply ih _ q hq
      by_cases hqf : q = f
      · right
        rw [hqf]
        exact hrm w.fs f
      · rcases h with h | h
        · rcases List.mem_cons.mp h with h | h
          · exact absurd h hqf
          · exact Or.inl h
        · right
          exact hkeep w.fs f q h
    · rw [if_neg hf]
      apply ih _ q hq
      rcases h with h | h
      · rcases List.mem_cons.mp h with h | h
        · rw [h] at hq
          exact absurd hq hf
        · exact Or.inl h
      · exact Or.inr h

/-- The last part of `zsign_sign_macho_mem` always ends with `RemoveTempFiles`
on the paths collected so far. -/
theorem zsign_sign_macho_mem_sign_world (env : Env) (w : World) (a : MemArgs)
    (tmp : List String) (inF outF cF kF pF eF : String) :
    ∃ w1, (zsign_sign_macho_mem_sign env w a tmp inF outF cF kF pF eF).world
      = RemoveTempFiles env w1 tmp := by
  unfold zsign_sign_macho_mem_sign
  dsimp only
  split
  · exact ⟨_, rfl⟩
  · split
    · exact ⟨_, rfl⟩
    · split
      · exact ⟨_, rfl⟩
      · exact ⟨_, rfl⟩

/-- The entitlements part ends with `RemoveTempFiles` on a list that extends
the paths collected so far. -/
theorem zsign_sign_macho_mem_entitlements_world (env : Env) (w : World) (a : MemArgs)
    (tmp : List String) (inF outF cF kF pF : String) :
    ∃ w1 tmp1, (∀ x ∈ tmp, x ∈ tmp1)
      ∧ (zsign_sign_macho_mem_entitlements env w a tmp inF outF cF kF pF).world
        = RemoveTempFiles env w1 tmp1 := by
  unfold zsign_sign_macho_mem_entitlements
  split
  · dsimp only
    split
    · exact ⟨_, tmp, fun _ h => h, rfl⟩
    · obtain ⟨w1, h⟩ := zsign_sign_macho_mem_sign_world env _ a _ inF outF cF kF pF _
      exact ⟨w1, _, fun x hx => List.mem_append_left _ hx, h⟩
  · obtain ⟨w1, h⟩ := zsign_sign_macho_mem_sign_world env w a tmp inF outF cF kF pF ""
    exact ⟨w1, tmp, fun _ h => h, h⟩

/-- The same for the part that stages the profile. -/
theorem zsign_sign_macho_mem_prov_world (env : Env) (w : World) (a : MemArgs)
    (tmp : List String) (inF outF cF kF : String) :
    ∃ w1 tmp1, (∀ x ∈ tmp, x ∈ tmp1)
      ∧ (zsign_sign_macho_mem_prov env w a tmp inF outF cF kF).world
        = RemoveTempFiles env w1 tmp1 := by
  unfold zsign_sign_macho_mem_prov
  split
  · dsimp only
    split
    · exact ⟨_, tmp, fun _ h => h, rfl⟩
    · obtain ⟨w1, t1, hsub, h⟩ :=
        zsign_sign_macho_mem_entitlements_world env _ a _ inF outF cF kF _
      exact ⟨w1, t1, fun x hx => hsub x (List.mem_append_left _ hx), h⟩
  · exact zsign_sign_macho_mem_entitlements_world env w a tmp inF outF cF kF ""

/-- The same for the part that stages the key. -/
theorem zsign_sign_macho_mem_pkey_world (env : Env) (w : World) (a : MemArgs)
    (tmp : List String) (inF outF cF : String) :
    ∃ w1 tmp1, (∀ x ∈ tmp, x ∈ tmp1)
      ∧ (zsign_sign_macho_mem_pkey env w a tmp inF outF cF).world
        = RemoveTempFiles env w1 tmp1 := by
  unfold zsign_sign_macho_mem_pkey
  split
  · dsimp only
    split
    · exact ⟨_, tmp, fun _ h => h, rfl⟩
    · obtain ⟨w1, t1, hsub, h⟩ := zsign_sign_macho_mem_prov_world env _ a _ inF outF cF _
      exact ⟨w1, t1, fun x hx => hsub x (List.mem_append_left _ hx), h⟩
  · exact zsign_sign_macho_mem_prov_world env w a tmp inF outF cF ""

/-- The same for the part that stages the certificate. -/
theorem zsign_sign_macho_mem_cert_world (env : Env) (w : World) (a : MemArgs)
    (tmp : List String) (inF outF : String) :
    ∃ w1 tmp1, (∀ x ∈ tmp, x ∈ tmp1)
      ∧ (zsign_sign_macho_mem_cert env w a tmp inF outF).world
        = RemoveTempFiles env w1 tmp1 := by
  unfold zsign_sign_macho_mem_cert
  split
  · dsimp only
    split
    · exact ⟨_, tmp, fun _ h => h, rfl⟩
    · obtain ⟨w1, t1, hsub, h⟩ := zsign_sign_macho_mem_pkey_world env _ a _ inF outF _
      exact ⟨w1, t1, fun x hx => hsub x (List.mem_append_left _ hx), h⟩
  · exact zsign_sign_macho_mem_pkey_world env w a tmp inF outF ""

/-- What the cleanup of `zsign_sign_macho_mem` does achieve: once the call has
built its input and output temp paths, every return path ends with
`RemoveTempFiles` on a list that holds both, so that neither file exists
afterwards (when removing a file makes it absent and never brings an absent
file back). -/
theorem zsign_sign_macho_mem_removes_input_and_output (env : Env) (w : World) (a : MemArgs)
    (hrm : ∀ fs p, env.IsFileExists (env.RemoveFile fs p).2 p = false)
    (hkeep : ∀ fs p q, env.IsFileExists fs q = false →
      env.IsFileExists (env.RemoveFile fs p).2 q = false)
    (hout : ¬ (a.output_data = none ∨ a.output_len = none))
    (hin : ¬ (a.input_data = none ∨ a.input_len = 0))
    (q : String) (hq : q ≠ "")
    (hmem : q = (BuildTempFilePath env w "input" (some ".macho")).1
      ∨ q = (BuildTempFilePath env (BuildTempFilePath env w "input" (some ".macho")).2
          "output" (some ".macho")).1) :
    env.IsFileExists (zsign_sign_macho_mem env w a).world.fs q = false := by
  have key : ∃ w1 tmp1,
      (∀ x ∈ [(BuildTempFilePath env w "input" (some ".macho")).1,
        (BuildTempFilePath env (BuildTempFilePath env w "input" (some ".macho")).2
          "output" (some ".macho")).1], x ∈ tmp1)
      ∧ (zsign_sign_macho_mem env w a).world = RemoveTempFiles env w1 tmp1 := by
    unfold zsign_sign_macho_mem
    rw [if_neg hout, if_neg hin]
    dsimp only
    split
    · exact ⟨_, _, fun _ h => h, rfl⟩
    · exact zsign_sign_macho_mem_cert_world env _ a _ _ _
  obtain ⟨w1, tmp1, hsub, hw⟩ := key
  rw [hw]
  apply RemoveTempFiles_removes env hrm hkeep tmp1 w1 q hq
  left
  apply hsub
  rcases hmem with h | h <;> simp [h]

end ZSign
